import Mathlib

/-!
HealX SaaS backend — a shallow embedding of the observation-ingestion,
journal, and media flows, checked against the repository's sources.

Embedded sources:
* `src/index.tsx` — the web harness: `generateBatchData`, the mock
  ingestion response, and the mock media-authorization response.
* `src/scripts/init_db.sql` — the relational schema (tables, CHECK
  constraints, UNIQUE constraints, ON DELETE CASCADE foreign keys) and
  the seed data for `data_sources` and `metric_definitions`.

The backend HTTP handlers themselves (batch ingestion, journal upsert,
media authorization) are not part of the repository snapshot — the
harness in `index.tsx` only calls them over HTTP.  Where a definition
stands in for such a missing handler it is marked `Modelled from the
spec:` in its doc comment and follows the spec's wording.

Modelling conventions: UUIDs and dates are opaque and modelled as `Nat`;
SQL `NUMERIC` values are modelled as `Int` (only their presence matters
to any claim here); SQL `NULL` is `Option.none`.  Server-assigned audit
timestamps (`created_at`, `ingested_at`, ...) and the `medications`
table are omitted: no claim mentions them.  Primary-key and email
uniqueness checks are likewise omitted from the insert operations —
omitting a constraint only enlarges the set of reachable database
states, so every invariant proved over `Reachable` holds a fortiori.
-/

namespace HealX

/-- Observation input record, mirroring the `ObservationInput` interface
of `src/index.tsx` (metric_code, recorded_at, value_numeric, value_text,
raw_metadata). -/
structure ObservationInput where
  metric_code : String
  recorded_at : String
  value_numeric : Option Int
  value_text : Option String
  raw_metadata : String
deriving DecidableEq

/-- Machine-readable per-record skip reasons of the ingestion pipeline
(spec section 4.2). -/
inductive SkipReason where
  | unknown_metric
  | missing_value
deriving DecidableEq

/-- Modelled from the spec: the per-record acceptance decision of the
backend Ingestion Pipeline (spec section 4.2, steps 2-3); the pipeline
handler is not under `src/` (the harness only posts to
`/observations/batch`).  A record whose code is not in the registry is
skipped with reason `unknown_metric`; a record with both values absent
is skipped with reason `missing_value`; every other record is accepted
(when both values are present, numeric takes precedence and the record
is still accepted). -/
def recordSkip (registry : List String) (r : ObservationInput) : Option SkipReason :=
  if registry.contains r.metric_code = false then some .unknown_metric
  else if r.value_numeric.isNone && r.value_text.isNone then some .missing_value
  else none

/-- Modelled from the spec: the batch partition of the Ingestion
Pipeline (spec section 4.2, steps 3 and 5); the handler is not under
`src/`.  Records are examined in input order; the result is the
processed count together with the skip list (metric code and reason for
every record that was not accepted), preserving input order. -/
def ingestPartition (registry : List String) : List ObservationInput → Nat × List (String × SkipReason)
  | [] => (0, [])
  | r :: rs =>
    let rest := ingestPartition registry rs
    match recordSkip registry r with
    | some reason => (rest.1, (r.metric_code, reason) :: rest.2)
    | none => (rest.1 + 1, rest.2)

/-- The four metric codes the web harness draws from
(`src/index.tsx`, `generateBatchData`). -/
def harnessMetrics : List String :=
  ["HEALX_TEST_TOTAL", "HEALX_VIT_D", "HK_HR_RESTING", "HK_VO2_MAX"]

/-- `generateBatchData` from `src/index.tsx`.  The calls to
`Math.random` are abstracted as oracles: `pick i` is the value of
`Math.floor(Math.random() * metrics.length)` for the i-th record (always
a valid index, hence `Fin 4`), `val i` the generated numeric value, and
`ts i` the ISO timestamp taken for the i-th record.  Every generated
record carries a numeric value, a null text value, and the constant
raw metadata of the harness. -/
def generateBatchData (count : Nat) (pick : Nat → Fin 4) (val : Nat → Int)
    (ts : Nat → String) : List ObservationInput :=
  (List.range count).map fun i =>
    { metric_code := harnessMetrics.get ((pick i).cast rfl)
      recorded_at := ts i
      value_numeric := some (val i)
      value_text := none
      raw_metadata := "Web Harness" }

/-- Shape of the batch-ingestion response (spec section 6 and the mock
branch of `handleIngest` in `src/index.tsx`). -/
structure IngestResponse where
  processed : Nat
  skipped_unknown_metrics : List String
  source_id : Nat
deriving DecidableEq

/-- The mock ingestion response of `handleIngest` in `src/index.tsx`:
`processed` equals the requested batch size, the skip list is empty and
the source id is the constant 123. -/
def mockIngestResponse (batchSize : Nat) : IngestResponse :=
  { processed := batchSize, skipped_unknown_metrics := [], source_id := 123 }

/-- Shape of the media-authorization response returned by the mock
branch of `handleMedia` in `src/index.tsx`. -/
structure MediaAuthResponse where
  upload_url : String
  file_path : String
deriving DecidableEq

/-- The mock branch of `handleMedia` in `src/index.tsx`: the fake signed
URL and the storage key `users/{userId}/uploads/{filename}`. -/
def handleMediaMock (userId filename : String) : MediaAuthResponse :=
  { upload_url := "https://storage.googleapis.com/fake-bucket/users/" ++ userId ++ "/"
      ++ filename ++ "?token=mock-token"
    file_path := "users/" ++ userId ++ "/uploads/" ++ filename }

/-- Full media-authorization response of the backend contract
(spec section 4.5): upload URL, file path, expiry instant. -/
structure MediaAuthorization where
  upload_url : String
  file_path : String
  expires_at : Nat
deriving DecidableEq

/-- Modelled from the spec: the backend Media Authorization Service
(spec section 4.5) is not under `src/` (the harness only posts to
`/media/upload-url`).  Per the contract
`authorize(user_id, filename, category, content_type) →
\x7bupload_url, file_path, expires_at\x7d`, the service namespaces the
storage key as `users/\x7buser_id\x7d/uploads/\x7bfilename\x7d` and
issues a URL valid for a finite duration `validity`, so the expiry is
the issuance instant `now` plus `validity`. -/
def authorize (now validity : Nat) (userId filename : String) : MediaAuthorization :=
  { upload_url := "https://storage.googleapis.com/healx-bucket/users/" ++ userId
      ++ "/uploads/" ++ filename ++ "?expires=" ++ toString (now + validity)
    file_path := "users/" ++ userId ++ "/uploads/" ++ filename
    expires_at := now + validity }

/-- `user_role` enumeration of `init_db.sql`. -/
inductive UserRole where
  | patient
  | clinician
  | admin
deriving DecidableEq

/-- `metric_category` enumeration of `init_db.sql`. -/
inductive MetricCategory where
  | Blood
  | DNA
  | Vitals
  | Functional
  | Fitness
  | Microbiome
deriving DecidableEq

/-- `file_category` enumeration of `init_db.sql`. -/
inductive FileCategory where
  | LabReport
  | Scan
  | UserUpload
  | FunctionalTestVideo
  | AudioNote
deriving DecidableEq

/-- Row of the `users` table (`init_db.sql`): id (UUID), unique email,
role.  Profile and audit columns are omitted (no claim mentions them). -/
structure UserRow where
  id : Nat
  email : String
  role : UserRole
deriving DecidableEq

/-- Row of the `data_sources` table (`init_db.sql`): SERIAL id, name,
optional credential hash, trust flag.  Note: the schema declares no
uniqueness constraint on `name`. -/
structure DataSourceRow where
  id : Nat
  name : String
  api_key_hash : Option String
  is_trusted : Bool
deriving DecidableEq

/-- Row of the `metric_definitions` table (`init_db.sql`): SERIAL id,
unique code, display name, category, optional unit and reference
range. -/
structure MetricDefRow where
  id : Nat
  code : String
  display_name : String
  category : MetricCategory
  unit : Option String
  ref_min : Option Int
  ref_max : Option Int
deriving DecidableEq

/-- Row of the `health_observations` table (`init_db.sql`): id, owning
user (FK), metric (FK), optional source (FK), event time, and the two
value columns governed by the `check_has_value` CHECK constraint. -/
structure ObservationRow where
  id : Nat
  user_id : Nat
  metric_id : Nat
  source_id : Option Nat
  recorded_at : String
  value_numeric : Option Int
  value_text : Option String
  raw_metadata : String
deriving DecidableEq

/-- Row of the `journal_entries` table (`init_db.sql`): id, owning user
(FK), entry date, markdown content, nullable mood score (CHECK 1..10
when present), tags.  The table carries `UNIQUE(user_id, entry_date)`. -/
structure JournalRow where
  id : Nat
  user_id : Nat
  entry_date : Nat
  content_markdown : Option String
  mood_score : Option Int
  tags : List String
deriving DecidableEq

/-- Row of the `media_files` table (`init_db.sql`): id, owning user
(FK), category, bucket, key, optional filename / mime type / size, and
the processed flag. -/
structure MediaRow where
  id : Nat
  user_id : Nat
  category : FileCategory
  s3_bucket : String
  s3_key : String
  filename : Option String
  mime_type : Option String
  size_bytes : Option Nat
  is_processed : Bool
deriving DecidableEq

/-- The database state: one list per embedded table of `init_db.sql`,
plus the SERIAL sequences of `data_sources` and `metric_definitions`. -/
structure DBState where
  users : List UserRow
  data_sources : List DataSourceRow
  metric_definitions : List MetricDefRow
  health_observations : List ObservationRow
  journal_entries : List JournalRow
  media_files : List MediaRow
  next_source_id : Nat
  next_metric_id : Nat
deriving DecidableEq

/-- The empty database produced by the DDL part of `init_db.sql`
(no rows, SERIAL sequences at 1). -/
def emptyDB : DBState :=
  { users := []
    data_sources := []
    metric_definitions := []
    health_observations := []
    journal_entries := []
    media_files := []
    next_source_id := 1
    next_metric_id := 1 }

/-- Errors surfaced by the storage layer and the modelled handlers:
foreign-key violations, the `check_has_value` CHECK of
`health_observations`, and the `invalid_mood` rejection of the journal
path (spec sections 4.4 and 7). -/
inductive DBError where
  | fk_user
  | fk_metric
  | fk_source
  | check_has_value
  | invalid_mood
deriving DecidableEq

/-- Insert a row into `users`.  Users are created externally
(spec section 3); the engine never creates them, but reachable states
must include states with arbitrary users. -/
def insertUser (s : DBState) (id : Nat) (email : String) (role : UserRole) : DBState :=
  { s with users := { id := id, email := email, role := role } :: s.users }

/-- Insert a row into `data_sources` (`init_db.sql`): the id is drawn
from the SERIAL sequence.  The schema has no uniqueness constraint on
`name`, so the insert never conflicts and always adds a row — the seed's
bare `ON CONFLICT DO NOTHING` clause therefore never fires. -/
def insertDataSource (s : DBState) (name : String) (api_key_hash : Option String)
    (is_trusted : Bool) : DBState :=
  { s with
      data_sources :=
        { id := s.next_source_id, name := name, api_key_hash := api_key_hash
          is_trusted := is_trusted } :: s.data_sources
      next_source_id := s.next_source_id + 1 }

/-- The `data_sources` seed of `init_db.sql`:
`INSERT INTO data_sources (name, is_trusted) VALUES ('Apple Health', TRUE),
('HealX Clinic Lab', TRUE), ('User Manual Entry', FALSE) ON CONFLICT DO
NOTHING`.  With SERIAL ids and no unique constraint on `name`, no
conflict can arise, so each execution inserts all three rows. -/
def seedDataSources (s : DBState) : DBState :=
  insertDataSource
    (insertDataSource
      (insertDataSource s "Apple Health" none true)
      "HealX Clinic Lab" none true)
    "User Manual Entry" none false

/-- Insert a row into `metric_definitions` with the seed's
`ON CONFLICT (code) DO NOTHING` semantics (`init_db.sql`): if a row with
the same code already exists the insert is a no-op, otherwise a row with
the next SERIAL id is added.  `code` carries a UNIQUE constraint. -/
def insertMetricDef (s : DBState) (code display_name : String) (category : MetricCategory)
    (unit : Option String) (ref_min ref_max : Option Int) : DBState :=
  if s.metric_definitions.any (fun m => m.code == code) then s
  else
    { s with
        metric_definitions :=
          { id := s.next_metric_id, code := code, display_name := display_name
            category := category, unit := unit, ref_min := ref_min
            ref_max := ref_max } :: s.metric_definitions
        next_metric_id := s.next_metric_id + 1 }

/-- The `metric_definitions` seed of `init_db.sql` (six metric codes,
`ON CONFLICT (code) DO NOTHING`). -/
def seedMetricDefs (s : DBState) : DBState :=
  insertMetricDef
    (insertMetricDef
      (insertMetricDef
        (insertMetricDef
          (insertMetricDef
            (insertMetricDef s "HEALX_TEST_TOTAL" "Total Testosterone" .Blood
              (some "ng/dL") (some 264) (some 916))
            "HEALX_VIT_D" "Vitamin D (25-OH)" .Blood (some "nmol/L") (some 50) (some 250))
          "HK_HR_RESTING" "Resting Heart Rate" .Vitals (some "bpm") (some 40) (some 100))
        "HK_VO2_MAX" "VO2 Max" .Fitness (some "ml/kg/min") none none)
      "DNA_MTHFR_C677T" "MTHFR C677T Variant" .DNA (some "Genotype") none none)
    "DNA_APOE" "APOE Status" .DNA (some "Haplotype") none none

/-- The registry view of a database state: the set of metric codes known
to `metric_definitions` (spec section 4.1). -/
def registryCodes (s : DBState) : List String :=
  s.metric_definitions.map (fun m => m.code)

/-- Insert a row into `health_observations`, enforcing the storage-layer
constraints of `init_db.sql`: `user_id` FK (NOT NULL), `metric_id` FK
(NOT NULL), optional `source_id` FK, and the `check_has_value` CHECK
`value_numeric IS NOT NULL OR value_text IS NOT NULL`. -/
def insertObservation (s : DBState) (user_id metric_id : Nat) (source_id : Option Nat)
    (recorded_at : String) (value_numeric : Option Int) (value_text : Option String)
    (raw_metadata : String) (id : Nat) : Except DBError DBState :=
  if s.users.any (fun w => w.id == user_id) = true then
    if s.metric_definitions.any (fun m => m.id == metric_id) = true then
      if (match source_id with
          | none => true
          | some j => s.data_sources.any (fun t => t.id == j)) = true then
        if value_numeric.isNone && value_text.isNone then .error .check_has_value
        else
          .ok { s with
                  health_observations :=
                    { id := id, user_id := user_id, metric_id := metric_id
                      source_id := source_id, recorded_at := recorded_at
                      value_numeric := value_numeric, value_text := value_text
                      raw_metadata := raw_metadata } :: s.health_observations }
      else .error .fk_source
    else .error .fk_metric
  else .error .fk_user

/-- The mood-score validity check: the `CHECK (mood_score BETWEEN 1 AND
10)` constraint of `journal_entries` (`init_db.sql`).  Per SQL CHECK
semantics a NULL mood score passes the constraint, so the range applies
only when a value is present. -/
def moodOk : Option Int → Bool
  | none => true
  | some m => decide (1 ≤ m) && decide (m ≤ 10)

/-- Modelled from the spec: the Journal Store upsert (spec section 4.4);
the journal handler is not under `src/` (the harness only posts to
`/journal`).  A mood score outside 1..10 is rejected (`invalid_mood`)
before any write; the `user_id` FK of `init_db.sql` is enforced; under
the `UNIQUE(user_id, entry_date)` constraint a write for an existing
(user, date) replaces that row's content, mood and tags in place
(upsert, not insert-fail), and otherwise a fresh row is inserted. -/
def upsertJournal (s : DBState) (user_id entry_date : Nat) (content : String)
    (mood_score : Option Int) (tags : List String) (id : Nat) : Except DBError DBState :=
  if moodOk mood_score = true then
    if s.users.any (fun w => w.id == user_id) = true then
      if s.journal_entries.any (fun r => r.user_id == user_id && r.entry_date == entry_date) = true then
        .ok { s with
                journal_entries :=
                  s.journal_entries.map (fun r =>
                    if r.user_id == user_id && r.entry_date == entry_date then
                      { r with content_markdown := some content
                               mood_score := mood_score, tags := tags }
                    else r) }
      else
        .ok { s with
                journal_entries :=
                  { id := id, user_id := user_id, entry_date := entry_date
                    content_markdown := some content, mood_score := mood_score
                    tags := tags } :: s.journal_entries }
    else .error .fk_user
  else .error .invalid_mood

/-- Insert a row into `media_files`, enforcing the `user_id` FK of
`init_db.sql`; per spec section 3 the row is created at authorization
time with `is_processed = false`. -/
def insertMediaFile (s : DBState) (user_id : Nat) (category : FileCategory)
    (s3_bucket s3_key : String) (filename mime_type : Option String)
    (size_bytes : Option Nat) (id : Nat) : Except DBError DBState :=
  if s.users.any (fun w => w.id == user_id) = true then
    .ok { s with
            media_files :=
              { id := id, user_id := user_id, category := category
                s3_bucket := s3_bucket, s3_key := s3_key, filename := filename
                mime_type := mime_type, size_bytes := size_bytes
                is_processed := false } :: s.media_files }
  else .error .fk_user

/-- Delete a user: per the `ON DELETE CASCADE` clauses of `init_db.sql`,
removing a `users` row also removes that user's rows from
`health_observations`, `journal_entries` and `media_files`. -/
def deleteUser (s : DBState) (uid : Nat) : DBState :=
  { s with
      users := s.users.filter (fun w => w.id != uid)
      health_observations := s.health_observations.filter (fun o => o.user_id != uid)
      journal_entries := s.journal_entries.filter (fun r => r.user_id != uid)
      media_files := s.media_files.filter (fun m => m.user_id != uid) }

/-- One database transition: any embedded operation applied with
arbitrary arguments (fallible operations contribute a step only when
they succeed; a failed operation leaves the state unchanged). -/
inductive Step : DBState → DBState → Prop where
  | user (s : DBState) (id : Nat) (email : String) (role : UserRole) :
      Step s (insertUser s id email role)
  | source (s : DBState) (name : String) (key : Option String) (trusted : Bool) :
      Step s (insertDataSource s name key trusted)
  | metric (s : DBState) (code dn : String) (cat : MetricCategory) (unit : Option String)
      (rmin rmax : Option Int) : Step s (insertMetricDef s code dn cat unit rmin rmax)
  | obs (s s' : DBState) (uid mid : Nat) (src : Option Nat) (t : String)
      (vn : Option Int) (vt : Option String) (meta : String) (id : Nat)
      (h : insertObservation s uid mid src t vn vt meta id = .ok s') : Step s s'
  | journal (s s' : DBState) (uid d : Nat) (c : String) (m : Option Int)
      (tg : List String) (id : Nat)
      (h : upsertJournal s uid d c m tg id = .ok s') : Step s s'
  | media (s s' : DBState) (uid : Nat) (cat : FileCategory) (b k : String)
      (fn mt : Option String) (sz : Option Nat) (id : Nat)
      (h : insertMediaFile s uid cat b k fn mt sz id = .ok s') : Step s s'
  | delete (s : DBState) (uid : Nat) : Step s (deleteUser s uid)

/-- Reachable database states: everything obtainable from the empty
database by a finite sequence of embedded operations. -/
inductive Reachable : DBState → Prop where
  | init : Reachable emptyDB
  | step {s s' : DBState} : Reachable s → Step s s' → Reachable s'

/-- Number of `journal_entries` rows for a given (user, entry_date)
pair. -/
def journalCount (s : DBState) (u d : Nat) : Nat :=
  s.journal_entries.countP (fun r => r.user_id == u && r.entry_date == d)


def wdb1 : DBState := insertUser emptyDB 1 "ada@example.com" .patient

def wdb2 : DBState :=
  insertMetricDef wdb1 "HK_HR_RESTING" "Resting Heart Rate" .Vitals (some "bpm") (some 40) (some 100)

def wdb3 : DBState := insertDataSource wdb2 "Apple Health" none true

def obsRowW : ObservationRow :=
  { id := 10, user_id := 1, metric_id := 1, source_id := some 1
    recorded_at := "2024-01-01T00:00:00Z", value_numeric := some 62
    value_text := none, raw_metadata := "harness" }

def wdb4 : DBState := { wdb3 with health_observations := [obsRowW] }

def jdb1 : DBState :=
  { wdb4 with
      journal_entries :=
        [{ id := 20, user_id := 1, entry_date := 20240101
           content_markdown := some "day one", mood_score := some 5, tags := ["demo"] }] }

def jdb2 : DBState :=
  { wdb4 with
      journal_entries :=
        [{ id := 20, user_id := 1, entry_date := 20240101
           content_markdown := some "day two", mood_score := some 9
           tags := ["web-harness"] }] }

def genRecW : ObservationInput :=
  { metric_code := "HK_HR_RESTING", recorded_at := "t0", value_numeric := some 62
    value_text := none, raw_metadata := "Web Harness" }

theorem upsertJournal_ok {s s' : DBState} {u d : Nat} {c : String} {m : Option Int}
    {tg : List String} {id : Nat}
    (h : upsertJournal s u d c m tg id = .ok s') :
    moodOk m = true ∧
    s.users.any (fun w => w.id == u) = true ∧
    ((s.journal_entries.any (fun r => r.user_id == u && r.entry_date == d) = true ∧
      s' = { s with
               journal_entries :=
                 s.journal_entries.map (fun r =>
                   if r.user_id == u && r.entry_date == d then
                     { r with content_markdown := some c, mood_score := m, tags := tg }
                   else r) }) ∨
     (s.journal_entries.any (fun r => r.user_id == u && r.entry_date == d) = false ∧
      s' = { s with
               journal_entries :=
                 { id := id, user_id := u, entry_date := d, content_markdown := some c
                   mood_score := m, tags := tg } :: s.journal_entries })) := by
  unfold upsertJournal at h
  split at h
  · split at h
    · split at h
      · exact ⟨by assumption, by assumption,
          .inl ⟨by assumption, (Except.ok.inj h).symm⟩⟩
      · exact ⟨by assumption, by assumption,
          .inr ⟨(Bool.not_eq_true _) ▸ (by assumption), (Except.ok.inj h).symm⟩⟩
    · exact absurd h (by simp)
  · exact absurd h (by simp)

theorem upsertJournal_frame {s s' : DBState} {u d : Nat} {c : String} {m : Option Int}
    {tg : List String} {id : Nat}
    (h : upsertJournal s u d c m tg id = .ok s') :
    s'.users = s.users ∧ s'.health_observations = s.health_observations ∧
    s'.media_files = s.media_files ∧ s'.data_sources = s.data_sources ∧
    s'.metric_definitions = s.metric_definitions := by
  rcases (upsertJournal_ok h).2.2 with ⟨-, rfl⟩ | ⟨-, rfl⟩ <;> exact ⟨rfl, rfl, rfl, rfl, rfl⟩

theorem upsertJournal_mem {s s' : DBState} {u d : Nat} {c : String} {m : Option Int}
    {tg : List String} {id : Nat}
    (h : upsertJournal s u d c m tg id = .ok s') :
    ∀ r ∈ s'.journal_entries,
      (r.user_id = u ∧ r.entry_date = d ∧ r.content_markdown = some c ∧
        r.mood_score = m ∧ r.tags = tg) ∨
      (r ∈ s.journal_entries ∧ (r.user_id == u && r.entry_date == d) = false) := by
  rcases (upsertJournal_ok h).2.2 with ⟨hany, rfl⟩ | ⟨hany, rfl⟩
  · intro r hr
    simp only [List.mem_map] at hr
    obtain ⟨r0, hr0, rfl⟩ := hr
    by_cases hp : (r0.user_id == u && r0.entry_date == d) = true
    · rw [if_pos hp]
      have h12 : r0.user_id = u ∧ r0.entry_date = d := by simpa using hp
      exact .inl ⟨h12.1, h12.2, rfl, rfl, rfl⟩
    · rw [if_neg hp]
      exact .inr ⟨hr0, (Bool.not_eq_true _) ▸ hp⟩
  · intro r hr
    rcases List.mem_cons.mp hr with rfl | hr0
    · exact .inl ⟨rfl, rfl, rfl, rfl, rfl⟩
    · have := (List.any_eq_false.mp hany) r hr0
      exact .inr ⟨hr0, (Bool.not_eq_true _) ▸ this⟩

theorem journalCount_upsert_self {s s' : DBState} {u d : Nat} {c : String} {m : Option Int}
    {tg : List String} {id : Nat}
    (h : upsertJournal s u d c m tg id = .ok s') (hle : journalCount s u d ≤ 1) :
    journalCount s' u d = 1 := by
  unfold journalCount at hle ⊢
  rcases (upsertJournal_ok h).2.2 with ⟨hany, rfl⟩ | ⟨hany, rfl⟩
  · show (List.map _ _).countP _ = 1
    rw [List.countP_map]
    have hcong : s.journal_entries.countP
        ((fun r => r.user_id == u && r.entry_date == d) ∘ (fun r =>
          if r.user_id == u && r.entry_date == d then
            { r with content_markdown := some c, mood_score := m, tags := tg }
          else r)) = s.journal_entries.countP (fun r => r.user_id == u && r.entry_date == d) := by
      apply List.countP_congr
      intro r0 _
      by_cases hp : (r0.user_id == u && r0.entry_date == d) = true
      · simp only [Function.comp_apply, if_pos hp]
      · simp only [Function.comp_apply, if_neg hp]
    rw [hcong]
    have hpos : 0 < s.journal_entries.countP (fun r => r.user_id == u && r.entry_date == d) := by
      rw [List.countP_pos_iff]
      obtain ⟨r, hr, hpr⟩ := List.any_eq_true.mp hany
      exact ⟨r, hr, hpr⟩
    omega
  · show List.countP _ (_ :: _) = 1
    rw [List.countP_cons]
    have hz : s.journal_entries.countP (fun r => r.user_id == u && r.entry_date == d) = 0 := by
      rw [List.countP_eq_zero]
      intro r hr
      exact (List.any_eq_false.mp hany) r hr
    simp [hz]

theorem journalCount_upsert_other {s s' : DBState} {u d : Nat} {c : String} {m : Option Int}
    {tg : List String} {id : Nat}
    (h : upsertJournal s u d c m tg id = .ok s') (u' d' : Nat)
    (hne : ¬(u' = u ∧ d' = d)) :
    journalCount s' u' d' = journalCount s u' d' := by
  unfold journalCount
  rcases (upsertJournal_ok h).2.2 with ⟨hany, rfl⟩ | ⟨hany, rfl⟩
  · show (List.map _ _).countP _ = _
    rw [List.countP_map]
    apply List.countP_congr
    intro r0 _
    by_cases hp : (r0.user_id == u && r0.entry_date == d) = true
    · simp only [Function.comp_apply, if_pos hp]
    · simp only [Function.comp_apply, if_neg hp]
  · show List.countP _ (_ :: _) = _
    rw [List.countP_cons]
    have hf : (({ id := id, user_id := u, entry_date := d, content_markdown := some c
                  mood_score := m, tags := tg } : JournalRow).user_id == u' &&
               ({ id := id, user_id := u, entry_date := d, content_markdown := some c
                  mood_score := m, tags := tg } : JournalRow).entry_date == d') = false := by
      simp only [Bool.and_eq_false_iff, beq_eq_false_iff_ne]
      by_cases hu : u = u'
      · subst hu
        exact .inr (fun hd => hne ⟨rfl, hd.symm⟩)
      · exact .inl (fun hh => hu hh)
    simp [hf]


theorem insertObservation_ok {s s' : DBState} {uid mid : Nat} {src : Option Nat}
    {t : String} {vn : Option Int} {vt : Option String} {meta : String} {id : Nat}
    (h : insertObservation s uid mid src t vn vt meta id = .ok s') :
    s.users.any (fun w => w.id == uid) = true ∧
    (vn.isNone && vt.isNone) = false ∧
    s' = { s with
             health_observations :=
               { id := id, user_id := uid, metric_id := mid, source_id := src
                 recorded_at := t, value_numeric := vn, value_text := vt
                 raw_metadata := meta } :: s.health_observations } := by
  unfold insertObservation at h
  split at h
  · split at h
    · split at h
      · split at h
        · exact absurd h (by simp)
        · refine ⟨by assumption, (Bool.not_eq_true _) ▸ (by assumption), ?_⟩
          exact (Except.ok.inj h).symm
      · exact absurd h (by simp)
    · exact absurd h (by simp)
  · exact absurd h (by simp)

theorem insertMediaFile_ok {s s' : DBState} {uid : Nat} {cat : FileCategory}
    {b k : String} {fn mt : Option String} {sz : Option Nat} {id : Nat}
    (h : insertMediaFile s uid cat b k fn mt sz id = .ok s') :
    s.users.any (fun w => w.id == uid) = true ∧
    s' = { s with
             media_files :=
               { id := id, user_id := uid, category := cat, s3_bucket := b
                 s3_key := k, filename := fn, mime_type := mt, size_bytes := sz
                 is_processed := false } :: s.media_files } := by
  unfold insertMediaFile at h
  split at h
  · exact ⟨by assumption, (Except.ok.inj h).symm⟩
  · exact absurd h (by simp)

theorem reachable_journalCount_le {s : DBState} (h : Reachable s) :
    ∀ u d, journalCount s u d ≤ 1 := by
  induction h with
  | init => intro u d; simp [journalCount, emptyDB]
  | step _ hst ih =>
    intro u d
    cases hst with
    | user id email role => exact ih u d
    | source name key trusted => exact ih u d
    | metric code dn cat unit rmin rmax =>
      unfold insertMetricDef
      split
      · exact ih u d
      · exact ih u d
    | obs s' uid mid src t vn vt meta id h =>
      rcases insertObservation_ok h with ⟨-, -, rfl⟩
      exact ih u d
    | journal s' uid dd c m tg id h =>
      by_cases hud : u = uid ∧ d = dd
      · rcases hud with ⟨rfl, rfl⟩
        exact Nat.le_of_eq (journalCount_upsert_self h (ih u d))
      · rw [journalCount_upsert_other h u d hud]
        exact ih u d
    | media s' uid cat b k fn mt sz id h =>
      rcases insertMediaFile_ok h with ⟨-, rfl⟩
      exact ih u d
    | delete uid =>
      exact le_trans ((List.filter_sublist _).countP_le _) (ih u d)

theorem reachable_mood_in_range {s : DBState} (h : Reachable s) :
    ∀ r ∈ s.journal_entries, ∀ m : Int, r.mood_score = some m → 1 ≤ m ∧ m ≤ 10 := by
  induction h with
  | init => intro r hr; simp [emptyDB] at hr
  | step _ hst ih =>
    intro r hr m hm
    cases hst with
    | user id email role => exact ih r hr m hm
    | source name key trusted => exact ih r hr m hm
    | metric code dn cat unit rmin rmax =>
      revert hr
      unfold insertMetricDef
      split
      · exact fun hr => ih r hr m hm
      · exact fun hr => ih r hr m hm
    | obs s' uid mid src t vn vt meta id h =>
      rcases insertObservation_ok h with ⟨-, -, rfl⟩
      exact ih r hr m hm
    | journal s' uid dd c mv tg id h =>
      rcases upsertJournal_mem h r hr with ⟨-, -, -, hmood, -⟩ | ⟨hr0, -⟩
      · have hok := (upsertJournal_ok h).1
        have hsome : mv = some m := hmood.symm.trans hm
        rw [hsome] at hok
        simpa [moodOk] using hok
      · exact ih r hr0 m hm
    | media s' uid cat b k fn mt sz id h =>
      rcases insertMediaFile_ok h with ⟨-, rfl⟩
      exact ih r hr m hm
    | delete uid =>
      exact ih r (List.mem_of_mem_filter hr) m hm


theorem reachable_obs_has_value {s : DBState} (h : Reachable s) :
    ∀ r ∈ s.health_observations, r.value_numeric.isSome = true ∨ r.value_text.isSome = true := by
  induction h with
  | init => intro r hr; simp [emptyDB] at hr
  | step _ hst ih =>
    intro r hr
    cases hst with
    | user id email role => exact ih r hr
    | source name key trusted => exact ih r hr
    | metric code dn cat unit rmin rmax =>
      revert hr
      unfold insertMetricDef
      split
      · exact fun hr => ih r hr
      · exact fun hr => ih r hr
    | obs s' uid mid src t vn vt meta id h =>
      rcases insertObservation_ok h with ⟨-, hval, rfl⟩
      rcases List.mem_cons.mp hr with rfl | hr0
      · rcases Bool.and_eq_false_iff.mp hval with hn | hn
        · exact .inl (by cases vn <;> simp_all)
        · exact .inr (by cases vt <;> simp_all)
      · exact ih r hr0
    | journal s' uid dd c mv tg id h =>
      rw [(upsertJournal_frame h).2.1] at hr
      exact ih r hr
    | media s' uid cat b k fn mt sz id h =>
      rcases insertMediaFile_ok h with ⟨-, rfl⟩
      exact ih r hr
    | delete uid =>
      exact ih r (List.mem_of_mem_filter hr)

theorem user_exists_of_any {l : List UserRow} {u : Nat}
    (h : l.any (fun w => w.id == u) = true) : ∃ w ∈ l, w.id = u := by
  obtain ⟨w, hw, hww⟩ := List.any_eq_true.mp h
  exact ⟨w, hw, eq_of_beq hww⟩

theorem reachable_fk_user {s : DBState} (h : Reachable s) :
    (∀ o ∈ s.health_observations, ∃ w ∈ s.users, w.id = o.user_id) ∧
    (∀ r ∈ s.journal_entries, ∃ w ∈ s.users, w.id = r.user_id) ∧
    (∀ f ∈ s.media_files, ∃ w ∈ s.users, w.id = f.user_id) := by
  induction h with
  | init => refine ⟨?_, ?_, ?_⟩ <;> intro r hr <;> simp [emptyDB] at hr
  | step _ hst ih =>
    obtain ⟨iho, ihj, ihm⟩ := ih
    cases hst with
    | user id email role =>
      refine ⟨fun o ho => ?_, fun r hrr => ?_, fun f hf => ?_⟩
      · obtain ⟨w, hw, hww⟩ := iho o ho
        exact ⟨w, List.mem_cons_of_mem _ hw, hww⟩
      · obtain ⟨w, hw, hww⟩ := ihj r hrr
        exact ⟨w, List.mem_cons_of_mem _ hw, hww⟩
      · obtain ⟨w, hw, hww⟩ := ihm f hf
        exact ⟨w, List.mem_cons_of_mem _ hw, hww⟩
    | source name key trusted => exact ⟨iho, ihj, ihm⟩
    | metric code dn cat unit rmin rmax =>
      unfold insertMetricDef
      split
      · exact ⟨iho, ihj, ihm⟩
      · exact ⟨iho, ihj, ihm⟩
    | obs s' uid mid src t vn vt meta id h =>
      rcases insertObservation_ok h with ⟨huser, -, rfl⟩
      refine ⟨fun o ho => ?_, ihj, ihm⟩
      rcases List.mem_cons.mp ho with rfl | ho0
      · exact user_exists_of_any huser
      · exact iho o ho0
    | journal s' uid dd c mv tg id h =>
      have hfr := upsertJournal_frame h
      have huser := (upsertJournal_ok h).2.1
      refine ⟨?_, ?_, ?_⟩
      · rw [hfr.1, hfr.2.1]
        exact iho
      · rw [hfr.1]
        intro r hrr
        rcases upsertJournal_mem h r hrr with ⟨hu, -, -, -, -⟩ | ⟨hr0, -⟩
        · rw [hu]
          exact user_exists_of_any huser
        · exact ihj r hr0
      · rw [hfr.1, hfr.2.2.1]
        exact ihm
    | media s' uid cat b k fn mt sz id h =>
      rcases insertMediaFile_ok h with ⟨huser, rfl⟩
      refine ⟨iho, ihj, fun f hf => ?_⟩
      rcases List.mem_cons.mp hf with rfl | hf0
      · exact user_exists_of_any huser
      · exact ihm f hf0
    | delete uid =>
      refine ⟨fun o ho => ?_, fun r hrr => ?_, fun f hf => ?_⟩
      · have ho' := List.mem_filter.mp ho
        obtain ⟨w, hw, hww⟩ := iho o ho'.1
        refine ⟨w, List.mem_filter.mpr ⟨hw, ?_⟩, hww⟩
        rw [bne_iff_ne] at ho' ⊢
        rw [hww]
        exact ho'.2
      · have hr' := List.mem_filter.mp hrr
        obtain ⟨w, hw, hww⟩ := ihj r hr'.1
        refine ⟨w, List.mem_filter.mpr ⟨hw, ?_⟩, hww⟩
        rw [bne_iff_ne] at hr' ⊢
        rw [hww]
        exact hr'.2
      · have hf' := List.mem_filter.mp hf
        obtain ⟨w, hw, hww⟩ := ihm f hf'.1
        refine ⟨w, List.mem_filter.mpr ⟨hw, ?_⟩, hww⟩
        rw [bne_iff_ne] at hf' ⊢
        rw [hww]
        exact hf'.2


theorem ingestPartition_total (reg : List String) :
    ∀ l : List ObservationInput,
      (ingestPartition reg l).1 + (ingestPartition reg l).2.length = l.length := by
  intro l
  induction l with
  | nil => rfl
  | cons r rs ih =>
    simp only [ingestPartition]
    cases hsk : recordSkip reg r <;> simp [hsk] <;> omega

theorem ingestPartition_all_ok (reg : List String) :
    ∀ l : List ObservationInput, (∀ r ∈ l, recordSkip reg r = none) →
      ingestPartition reg l = (l.length, []) := by
  intro l
  induction l with
  | nil => intro _; rfl
  | cons r rs ih =>
    intro h
    have hr := h r (List.mem_cons_self r rs)
    have hrs := ih (fun x hx => h x (List.mem_cons_of_mem r hx))
    simp only [ingestPartition, hr, hrs, List.length_cons]

theorem harness_code_in_registry :
    ∀ j : Fin 4,
      (registryCodes (seedMetricDefs emptyDB)).contains (harnessMetrics.get (j.cast rfl)) = true := by
  decide

theorem harness_code_in_seed :
    ∀ j : Fin 4,
      (seedMetricDefs emptyDB).metric_definitions.any
        (fun mdef => mdef.code == harnessMetrics.get (j.cast rfl)) = true := by
  decide

theorem harness_code_mem : ∀ j : Fin 4, harnessMetrics.get (j.cast rfl) ∈ harnessMetrics := by
  decide

theorem generateBatchData_length (n : Nat) (pick : Nat → Fin 4) (val : Nat → Int)
    (ts : Nat → String) : (generateBatchData n pick val ts).length = n := by
  simp [generateBatchData]

theorem generateBatchData_shape {n : Nat} {pick : Nat → Fin 4} {val : Nat → Int}
    {ts : Nat → String} {r : ObservationInput} (hr : r ∈ generateBatchData n pick val ts) :
    ∃ i : Nat,
      r = { metric_code := harnessMetrics.get ((pick i).cast rfl), recorded_at := ts i
            value_numeric := some (val i), value_text := none
            raw_metadata := "Web Harness" } := by
  simp only [generateBatchData, List.mem_map, List.mem_range] at hr
  obtain ⟨i, -, rfl⟩ := hr
  exact ⟨i, rfl⟩

theorem generated_recordSkip_none {r : ObservationInput}
    {n : Nat} {pick : Nat → Fin 4} {val : Nat → Int} {ts : Nat → String}
    (hr : r ∈ generateBatchData n pick val ts) :
    recordSkip (registryCodes (seedMetricDefs emptyDB)) r = none := by
  obtain ⟨i, rfl⟩ := generateBatchData_shape hr
  unfold recordSkip
  rw [if_neg (by simp only [harness_code_in_registry (pick i)]; simp)]
  rw [if_neg (by simp)]

theorem media_path_split (u f : String) :
    "users/" ++ u ++ "/uploads/" ++ f = ("users/" ++ u ++ "/") ++ ("uploads/" ++ f) := by
  have h : "/uploads/" = "/" ++ "uploads/" := rfl
  rw [h, ← String.append_assoc, String.append_assoc ("users/" ++ u ++ "/")]


theorem wdb4_step :
    insertObservation wdb3 1 1 (some 1) "2024-01-01T00:00:00Z" (some 62) none "harness" 10
      = .ok wdb4 := rfl

theorem jdb1_step :
    upsertJournal wdb4 1 20240101 "day one" (some 5) ["demo"] 20 = .ok jdb1 := rfl

theorem jdb2_step :
    upsertJournal jdb1 1 20240101 "day two" (some 9) ["web-harness"] 21 = .ok jdb2 := rfl

theorem reach_wdb4 : Reachable wdb4 :=
  .step
    (.step
      (.step (.step .init (.user emptyDB 1 "ada@example.com" .patient))
        (.metric wdb1 "HK_HR_RESTING" "Resting Heart Rate" .Vitals (some "bpm") (some 40)
          (some 100)))
      (.source wdb2 "Apple Health" none true))
    (.obs wdb3 wdb4 1 1 (some 1) "2024-01-01T00:00:00Z" (some 62) none "harness" 10 wdb4_step)

theorem reach_seed_twice : Reachable (seedDataSources (seedDataSources emptyDB)) := by
  have s1 : ∀ s : DBState, Reachable s → Reachable (seedDataSources s) := by
    intro s hs
    exact .step (.step (.step hs (.source s "Apple Health" none true))
      (.source _ "HealX Clinic Lab" none true)) (.source _ "User Manual Entry" none false)
  exact s1 _ (s1 _ .init)


/-- C1: for every ingestion batch the processed count plus the length of the
skip list equals the length of the submitted data; for a generated batch of n
records (all codes registered, all values present) the pipeline reports
processed = n with an empty skip list, matching the mock response of
`handleIngest`. -/
theorem spec_c1_batch_accounting :
    (∀ (registry : List String) (data : List ObservationInput),
      (ingestPartition registry data).1 + (ingestPartition registry data).2.length
        = data.length) ∧
    (∀ (n : Nat) (pick : Nat → Fin 4) (val : Nat → Int) (ts : Nat → String),
      ingestPartition (registryCodes (seedMetricDefs emptyDB)) (generateBatchData n pick val ts)
          = (n, []) ∧
      (mockIngestResponse n).processed = (generateBatchData n pick val ts).length ∧
      (mockIngestResponse n).skipped_unknown_metrics = []) := by
  refine ⟨ingestPartition_total, fun n pick val ts => ⟨?_, ?_, rfl⟩⟩
  · rw [ingestPartition_all_ok _ _ (fun r hr => generated_recordSkip_none hr),
      generateBatchData_length]
  · rw [generateBatchData_length]
    rfl

/-- C2: in every reachable database state, every `health_observations` row has
at least one of `value_numeric`, `value_text` populated (the `check_has_value`
constraint; never both absent). -/
theorem spec_c2_value_presence (s : DBState) (h : Reachable s) :
    ∀ r ∈ s.health_observations,
      r.value_numeric.isSome = true ∨ r.value_text.isSome = true :=
  reachable_obs_has_value h

theorem spec_c2_value_presence_witness :
    Reachable wdb4 ∧ obsRowW ∈ wdb4.health_observations ∧
      (obsRowW.value_numeric.isSome = true ∨ obsRowW.value_text.isSome = true) :=
  ⟨reach_wdb4, by decide, spec_c2_value_presence wdb4 reach_wdb4 obsRowW (by decide)⟩

/-- C3 (counterexample to the claimed name-uniqueness of `data_sources`): the
schema has no uniqueness constraint on `data_sources.name`, so running the
seed of `init_db.sql` twice yields a reachable state holding two rows named
"Apple Health" instead of one. -/
theorem spec_c3_duplicate_source_name :
    Reachable (seedDataSources (seedDataSources emptyDB)) ∧
    ((seedDataSources (seedDataSources emptyDB)).data_sources.filter
      (fun r => r.name == "Apple Health")).length = 2 :=
  ⟨reach_seed_twice, by decide⟩

/-- C4: in every reachable state each (user, entry_date) has at most one
journal row, and after two successive upserts for the same (user, date) the
surviving row is unique and carries the second write's content, mood and
tags. -/
theorem spec_c4_journal_upsert (s s1 s2 : DBState) (hs : Reachable s) (u d : Nat)
    (ca cb : String) (ma mb : Option Int) (ta tb : List String) (ida idb : Nat)
    (h1 : upsertJournal s u d ca ma ta ida = .ok s1)
    (h2 : upsertJournal s1 u d cb mb tb idb = .ok s2) :
    (∀ u' d', journalCount s u' d' ≤ 1) ∧
    journalCount s2 u d = 1 ∧
    ∀ r ∈ s2.journal_entries, r.user_id = u → r.entry_date = d →
      r.content_markdown = some cb ∧ r.mood_score = mb ∧ r.tags = tb := by
  have hinv := reachable_journalCount_le hs
  have hc1 : journalCount s1 u d = 1 := journalCount_upsert_self h1 (hinv u d)
  have hc2 : journalCount s2 u d = 1 := journalCount_upsert_self h2 (Nat.le_of_eq hc1)
  refine ⟨hinv, hc2, fun r hr hu hd => ?_⟩
  rcases upsertJournal_mem h2 r hr with ⟨-, -, hcont, hm, ht⟩ | ⟨-, hfalse⟩
  · exact ⟨hcont, hm, ht⟩
  · exfalso
    rw [hu, hd] at hfalse
    simp at hfalse

theorem spec_c4_journal_upsert_witness :
    Reachable wdb4 ∧
    upsertJournal wdb4 1 20240101 "day one" (some 5) ["demo"] 20 = .ok jdb1 ∧
    upsertJournal jdb1 1 20240101 "day two" (some 9) ["web-harness"] 21 = .ok jdb2 ∧
    journalCount jdb2 1 20240101 = 1 :=
  ⟨reach_wdb4, jdb1_step, jdb2_step,
    (spec_c4_journal_upsert wdb4 jdb1 jdb2 reach_wdb4 1 20240101 "day one" "day two"
      (some 5) (some 9) ["demo"] ["web-harness"] 20 21 jdb1_step jdb2_step).2.1⟩

/-- C5: a journal write with mood 0 or 11 is rejected with `invalid_mood`
before any write, writes with mood 1 or 10 are accepted (for an existing
user), and in every reachable state no stored journal row carries a mood score
outside 1..10. -/
theorem spec_c5_mood_boundaries (s : DBState) (hs : Reachable s) (u d : Nat) (c : String)
    (tg : List String) (id : Nat) (huser : s.users.any (fun w => w.id == u) = true) :
    upsertJournal s u d c (some 0) tg id = .error .invalid_mood ∧
    upsertJournal s u d c (some 11) tg id = .error .invalid_mood ∧
    (upsertJournal s u d c (some 1) tg id).isOk = true ∧
    (upsertJournal s u d c (some 10) tg id).isOk = true ∧
    ∀ r ∈ s.journal_entries, ∀ m : Int, r.mood_score = some m → 1 ≤ m ∧ m ≤ 10 := by
  refine ⟨?_, ?_, ?_, ?_, reachable_mood_in_range hs⟩
  · unfold upsertJournal
    rw [if_neg (by decide)]
  · unfold upsertJournal
    rw [if_neg (by decide)]
  · unfold upsertJournal
    rw [if_pos (by decide), if_pos huser]
    split <;> rfl
  · unfold upsertJournal
    rw [if_pos (by decide), if_pos huser]
    split <;> rfl

theorem spec_c5_mood_boundaries_witness :
    (Reachable wdb4 ∧ wdb4.users.any (fun w => w.id == 1) = true) ∧
    upsertJournal wdb4 1 20240102 "x" (some 0) [] 30 = .error .invalid_mood ∧
    (upsertJournal wdb4 1 20240102 "x" (some 1) [] 30).isOk = true :=
  ⟨⟨reach_wdb4, by decide⟩,
    (spec_c5_mood_boundaries wdb4 reach_wdb4 1 20240102 "x" [] 30 (by decide)).1,
    (spec_c5_mood_boundaries wdb4 reach_wdb4 1 20240102 "x" [] 30 (by decide)).2.2.1⟩

/-- C6: the media-authorization mock of `handleMedia` returns the storage key
`users/U/uploads/F`, which always lies inside the requesting user's
`users/U/` namespace. -/
theorem spec_c6_media_path (u f : String) :
    (handleMediaMock u f).file_path = "users/" ++ u ++ "/uploads/" ++ f ∧
    ∃ rest : String, (handleMediaMock u f).file_path = ("users/" ++ u ++ "/") ++ rest :=
  ⟨rfl, ⟨"uploads/" ++ f, media_path_split u f⟩⟩

/-- C7: every media authorization carries an `expires_at` equal to the
issuance instant plus the finite validity duration, which lies strictly in the
future when the duration is positive. -/
theorem spec_c7_authorization_expiry (now validity : Nat) (u f : String)
    (hv : 0 < validity) :
    (authorize now validity u f).expires_at = now + validity ∧
    now < (authorize now validity u f).expires_at := by
  refine ⟨rfl, ?_⟩
  show now < now + validity
  omega

theorem spec_c7_authorization_expiry_witness :
    0 < 3600 ∧ ((authorize 1000 3600 "U" "scan.pdf").expires_at = 1000 + 3600 ∧
      1000 < (authorize 1000 3600 "U" "scan.pdf").expires_at) :=
  ⟨by decide, spec_c7_authorization_expiry 1000 3600 "U" "scan.pdf" (by decide)⟩

/-- C8: in every reachable state every observation, journal and media row
references an existing user, and deleting a user removes exactly that user's
row and that user's observation, journal and media rows, leaving all other
rows unchanged. -/
theorem spec_c8_user_fk_cascade (s : DBState) (hs : Reachable s) :
    ((∀ o ∈ s.health_observations, ∃ w ∈ s.users, w.id = o.user_id) ∧
     (∀ r ∈ s.journal_entries, ∃ w ∈ s.users, w.id = r.user_id) ∧
     (∀ f ∈ s.media_files, ∃ w ∈ s.users, w.id = f.user_id)) ∧
    ∀ uid : Nat,
      (∀ w : UserRow, w ∈ (deleteUser s uid).users ↔ w ∈ s.users ∧ w.id ≠ uid) ∧
      (∀ o : ObservationRow,
        o ∈ (deleteUser s uid).health_observations ↔
          o ∈ s.health_observations ∧ o.user_id ≠ uid) ∧
      (∀ r : JournalRow,
        r ∈ (deleteUser s uid).journal_entries ↔
          r ∈ s.journal_entries ∧ r.user_id ≠ uid) ∧
      (∀ f : MediaRow,
        f ∈ (deleteUser s uid).media_files ↔ f ∈ s.media_files ∧ f.user_id ≠ uid) := by
  refine ⟨reachable_fk_user hs, fun uid => ⟨?_, ?_, ?_, ?_⟩⟩ <;> intro x <;>
    simp [deleteUser, List.mem_filter, bne_iff_ne]

theorem spec_c8_user_fk_cascade_witness :
    Reachable wdb4 ∧ obsRowW ∈ wdb4.health_observations ∧
      ∃ w ∈ wdb4.users, w.id = obsRowW.user_id :=
  ⟨reach_wdb4, by decide,
    ((spec_c8_user_fk_cascade wdb4 reach_wdb4).1).1 obsRowW (by decide)⟩

/-- C9: `generateBatchData` returns exactly n records, each with a metric code
drawn from the four harness codes (all present in the `metric_definitions`
seed), a non-null numeric value and a null text value, so no generated record
triggers the `unknown_metric` or `missing_value` skip paths. -/
theorem spec_c9_generated_records (n : Nat) (pick : Nat → Fin 4) (val : Nat → Int)
    (ts : Nat → String) :
    (generateBatchData n pick val ts).length = n ∧
    ∀ r ∈ generateBatchData n pick val ts,
      r.metric_code ∈ harnessMetrics ∧
      (seedMetricDefs emptyDB).metric_definitions.any
        (fun mdef => mdef.code == r.metric_code) = true ∧
      r.value_numeric.isSome = true ∧ r.value_text = none ∧
      recordSkip (registryCodes (seedMetricDefs emptyDB)) r = none := by
  refine ⟨generateBatchData_length n pick val ts, fun r hr => ?_⟩
  have hskip := generated_recordSkip_none hr
  obtain ⟨i, rfl⟩ := generateBatchData_shape hr
  exact ⟨harness_code_mem (pick i), harness_code_in_seed (pick i), rfl, rfl, hskip⟩

theorem spec_c9_generated_records_witness :
    genRecW ∈ generateBatchData 1 (fun _ => 2) (fun _ => 62) (fun _ => "t0") ∧
    (genRecW.metric_code ∈ harnessMetrics ∧
      (seedMetricDefs emptyDB).metric_definitions.any
        (fun mdef => mdef.code == genRecW.metric_code) = true ∧
      genRecW.value_numeric.isSome = true ∧ genRecW.value_text = none ∧
      recordSkip (registryCodes (seedMetricDefs emptyDB)) genRecW = none) :=
  ⟨by decide,
    (spec_c9_generated_records 1 (fun _ => 2) (fun _ => 62) (fun _ => "t0")).2 genRecW
      (by decide)⟩

/-- C10: a journal write with no mood score at all is accepted and stored: the
CHECK constraint passes on NULL, the upsert succeeds (for an existing user),
and the stored row for that (user, date) carries no mood score. -/
theorem spec_c10_null_mood (s : DBState) (u d : Nat) (c : String) (tg : List String)
    (id : Nat) (huser : s.users.any (fun w => w.id == u) = true) :
    moodOk none = true ∧
    ∃ s' : DBState, upsertJournal s u d c none tg id = .ok s' ∧
      ∃ r ∈ s'.journal_entries, r.user_id = u ∧ r.entry_date = d ∧ r.mood_score = none := by
  refine ⟨rfl, ?_⟩
  unfold upsertJournal
  rw [if_pos (by decide), if_pos huser]
  by_cases hany : s.journal_entries.any (fun r => r.user_id == u && r.entry_date == d) = true
  · rw [if_pos hany]
    refine ⟨_, rfl, ?_⟩
    obtain ⟨r0, hr0, hp⟩ := List.any_eq_true.mp hany
    have h12 : r0.user_id = u ∧ r0.entry_date = d := by simpa using hp
    refine ⟨_, List.mem_map_of_mem _ hr0, ?_⟩
    rw [if_pos hp]
    exact ⟨h12.1, h12.2, rfl⟩
  · rw [if_neg hany]
    exact ⟨_, rfl, ⟨_, List.mem_cons_self _ _, rfl, rfl, rfl⟩⟩

theorem spec_c10_null_mood_witness :
    wdb4.users.any (fun w => w.id == 1) = true ∧
    (moodOk none = true ∧
      ∃ s' : DBState, upsertJournal wdb4 1 20240105 "no mood today" none [] 40 = .ok s' ∧
        ∃ r ∈ s'.journal_entries,
          r.user_id = 1 ∧ r.entry_date = 20240105 ∧ r.mood_score = none) :=
  ⟨by decide, spec_c10_null_mood wdb4 1 20240105 "no mood today" [] 40 (by decide)⟩

end HealX
